import Mathlib

/-!
Verification of the gmeet-cloudflare-backend worker (src/index.ts).

The worker computes free 20-minute meeting slots on a given day and creates
calendar events for bookings.  Instants are modelled as integer minutes since
an (arbitrary) epoch; civil Europe/Paris times are related to instants through
an explicit UTC-offset parameter `off` (in minutes), which is the offset in
effect on the queried date.  All six candidate slots of a day fall between
08:00 and 09:40 civil time, away from the 02:00/03:00 DST transition instants,
so a single offset per day is faithful to date-fns-tz behaviour.
-/

namespace Gmeet

/-- The fixed candidate slot labels, `const availableSlots = [...]` in index.ts. -/
def availableSlots : List String :=
  ["08:00", "08:20", "08:40", "09:00", "09:20", "09:40"]

/-- The OAuth scope string, `const OAUTH_SCOPES = ...` in index.ts. -/
def OAUTH_SCOPES : String :=
  "https://www.googleapis.com/auth/calendar https://www.googleapis.com/auth/calendar.events"

/-- Numeric value of a decimal digit character. -/
def digitVal (c : Char) : Nat := c.toNat - Char.toNat (Char.ofNat 48)

/-- JS numeric coercion of a digit string (`+"08"` etc.). -/
def parseDigits (cs : List Char) : Nat :=
  cs.foldl (fun n c => 10 * n + digitVal c) 0

/-- Minutes-of-day encoded by a slot label: `+slot.slice(0, 2)` hours and
`+slot.slice(3, 5)` minutes (JS numeric coercion of the digit substrings). -/
def parseSlotTime (s : String) : Int :=
  (parseDigits (s.data.take 2) : Int) * 60 + (parseDigits ((s.data.drop 3).take 2) : Int)

/-- Models date-fns-tz `fromZonedTime`: reinterpret civil wall-clock minutes
`civil` as Europe/Paris local time, yielding the absolute instant, where `off`
is the zone's UTC offset (in minutes) in effect at that civil time. -/
def fromZonedTime (civil off : Int) : Int := civil - off

/-- Models date-fns-tz `toZonedTime`: the civil Europe/Paris wall-clock minutes
of instant `t`, where `off` is the zone's UTC offset in effect at `t`. -/
def toZonedTime (t off : Int) : Int := t + off

/-- `buildDateSlots` of index.ts: map each slot label to the instant obtained
by combining the day's civil midnight (`dayBase`, in civil minutes) with the
label's time of day, interpreted in Europe/Paris (offset `off`). -/
def buildDateSlots (dayBase off : Int) : List Int :=
  availableSlots.map (fun s => fromZonedTime (dayBase + parseSlotTime s) off)

/-- A remote calendar event as seen by the conflict check.  The fields model
`new Date(event.start?.dateTime || '')` / `new Date(event.end?.dateTime || '')`:
`some t` is a valid parsed instant, `none` is the JS Invalid Date produced when
the field is absent (parsing the empty string). -/
structure CalEvent where
  startTime : Option Int
  endTime : Option Int
deriving DecidableEq, Repr

/-- date-fns `isBefore a b` where `b` may be an Invalid Date: every comparison
against NaN is false,  so an invalid right operand yields `false`. -/
def ltInvalid (a : Int) (b : Option Int) : Bool :=
  match b with
  | some b => a < b
  | none => false

/-- date-fns `isAfter a b` where `b` may be an Invalid Date: false when `b`
is invalid. -/
def gtInvalid (a : Int) (b : Option Int) : Bool :=
  match b with
  | some b => b < a
  | none => false

/-- The per-slot keep condition of the available-slots handler: with
`slotEnd = slot + 20` minutes, keep the slot iff no event satisfies
`isBefore(slot, eventEnd) && isAfter(slotEnd, eventStart)`. -/
def keepSlot (slot : Int) (events : List CalEvent) : Bool :=
  !(events.any fun e => ltInvalid slot e.endTime && gtInvalid (slot + 20) e.startTime)

/-- `dateSlots.filter(...)` of the available-slots handler. -/
def filterSlots (slots : List Int) (events : List CalEvent) : List Int :=
  slots.filter (fun s => keepSlot s events)

/-- Two-digit zero padding, as date-fns `format` does for `HH` and `mm`. -/
def pad2 (n : Nat) : String :=
  if n < 10 then "0" ++ toString n else toString n

/-- Models `format(civil, 'HH:mm')` on a civil wall-clock minute count. -/
def formatHHmm (civil : Int) : String :=
  pad2 ((civil % 1440).toNat / 60) ++ ":" ++ pad2 ((civil % 1440).toNat % 60)

/-- The GET /gmeet-api/available-slots response payload: filter the generated
slots against the events, then format each kept instant back to civil
Europe/Paris "HH:mm". -/
def availableSlotsHandler (dayBase off : Int) (events : List CalEvent) : List String :=
  (filterSlots (buildDateSlots dayBase off) events).map
    (fun t => formatHHmm (toZonedTime t off))

lemma parseSlotTime_values :
    availableSlots.map parseSlotTime = [480, 500, 520, 540, 560, 580] := by
  decide

lemma buildDateSlots_explicit (dayBase off : Int) :
    buildDateSlots dayBase off =
      [480, 500, 520, 540, 560, 580].map (fun m => dayBase + m - off) := by
  have h08 : parseSlotTime "08:00" = 480 := by decide
  have h0820 : parseSlotTime "08:20" = 500 := by decide
  have h0840 : parseSlotTime "08:40" = 520 := by decide
  have h09 : parseSlotTime "09:00" = 540 := by decide
  have h0920 : parseSlotTime "09:20" = 560 := by decide
  have h0940 : parseSlotTime "09:40" = 580 := by decide
  simp [buildDateSlots, availableSlots, fromZonedTime, h08, h0820, h0840, h09, h0920, h0940]

/-- C2: for every civil date (given by its civil midnight `dayBase` and the
Europe/Paris UTC offset `off` in effect on that date), `buildDateSlots`
returns exactly 6 slots, whose civil Europe/Paris start times are
08:00, 08:20, 08:40, 09:00, 09:20, 09:40 (in minutes of day:
480, 500, 520, 540, 560, 580), in strictly ascending order, each instant
being the civil time minus the date's offset. -/
theorem buildDateSlots_six_fixed_times (dayBase off : Int) :
    (buildDateSlots dayBase off).length = 6 ∧
    (buildDateSlots dayBase off).map (fun t => toZonedTime t off - dayBase)
      = [480, 500, 520, 540, 560, 580] ∧
    (buildDateSlots dayBase off).Pairwise (· < ·) ∧
    buildDateSlots dayBase off
      = [480, 500, 520, 540, 560, 580].map (fun m => fromZonedTime (dayBase + m) off) := by
  refine ⟨?_, ?_, ?_, ?_⟩
  · simp [buildDateSlots_explicit]
  · simp [buildDateSlots_explicit, toZonedTime]
  · rw [buildDateSlots_explicit]
    simp [List.pairwise_cons]
  · rw [buildDateSlots_explicit]
    simp [fromZonedTime]

lemma keepSlot_eq_true_iff (slot : Int) (events : List CalEvent) :
    keepSlot slot events = true ↔
      ∀ e ∈ events,
        ¬(ltInvalid slot e.endTime = true ∧ gtInvalid (slot + 20) e.startTime = true) := by
  simp [keepSlot, List.any_eq_true]

/-- C1: the availability filter keeps a slot iff no busy interval satisfies the
strict-overlap predicate `slot_start < event_end AND slot_end > event_start`
with `slot_end = slot_start + 20` minutes (comparisons against an absent field
follow JS Invalid-Date semantics, i.e. are false); the retained slots are a
sublist of the candidate list, so the fixed candidate order is preserved; and
the handler's response is exactly the retained slots formatted back to civil
Europe/Paris "HH:mm"; on a day whose civil midnight is `dayBase`
(a multiple of 1440 minutes), the full candidate list formats back to the
original labels. -/
theorem availability_filter_spec (dayBase off : Int) (events : List CalEvent)
    (hday : dayBase % 1440 = 0) :
    (∀ s : Int, s ∈ filterSlots (buildDateSlots dayBase off) events ↔
        s ∈ buildDateSlots dayBase off ∧
          ∀ e ∈ events,
            ¬(ltInvalid s e.endTime = true ∧ gtInvalid (s + 20) e.startTime = true))
    ∧ (filterSlots (buildDateSlots dayBase off) events).Sublist (buildDateSlots dayBase off)
    ∧ availableSlotsHandler dayBase off events
        = (filterSlots (buildDateSlots dayBase off) events).map
            (fun t => formatHHmm (toZonedTime t off))
    ∧ (buildDateSlots dayBase off).map (fun t => formatHHmm (toZonedTime t off))
        = availableSlots := by
  refine ⟨?_, ?_, rfl, ?_⟩
  · intro s
    rw [filterSlots, List.mem_filter, keepSlot_eq_true_iff]
  · exact List.filter_sublist _
  · have h480 : (dayBase + 480) % 1440 = 480 := by omega
    have h500 : (dayBase + 500) % 1440 = 500 := by omega
    have h520 : (dayBase + 520) % 1440 = 520 := by omega
    have h540 : (dayBase + 540) % 1440 = 540 := by omega
    have h560 : (dayBase + 560) % 1440 = 560 := by omega
    have h580 : (dayBase + 580) % 1440 = 580 := by omega
    rw [buildDateSlots_explicit]
    simp only [List.map_cons, List.map_nil, toZonedTime]
    have harith : ∀ m : Int, dayBase + m - off + off = dayBase + m := by intro m; ring
    rw [harith 480, harith 500, harith 520, harith 540, harith 560, harith 580]
    rw [formatHHmm, formatHHmm, formatHHmm, formatHHmm, formatHHmm, formatHHmm]
    rw [h480, h500, h520, h540, h560, h580]
    decide

/-- The candidate minutes-of-day, i.e. `buildDateSlots` at `dayBase = 0`,
`off = 0`. -/
def slots0 : List Int := [480, 500, 520, 540, 560, 580]

/-- Shift a calendar event's (valid) instants by `c` minutes. -/
def shiftEvent (c : Int) (e : CalEvent) : CalEvent :=
  ⟨e.startTime.map (· + c), e.endTime.map (· + c)⟩

lemma ltInvalid_shift (c a : Int) (b : Option Int) :
    ltInvalid (a + c) (b.map (· + c)) = ltInvalid a b := by
  cases b <;> simp [ltInvalid]

lemma gtInvalid_shift (c a : Int) (b : Option Int) :
    gtInvalid (a + c) (b.map (· + c)) = gtInvalid a b := by
  cases b <;> simp [gtInvalid]

lemma keepSlot_shift (c slot : Int) (events : List CalEvent) :
    keepSlot (slot + c) (events.map (shiftEvent c)) = keepSlot slot events := by
  unfold keepSlot
  rw [List.any_map]
  apply congrArg
  apply congrArg (List.any events)
  funext e
  have h1 : slot + c + 20 = slot + 20 + c := by ring
  simp only [Function.comp, shiftEvent, h1, ltInvalid_shift, gtInvalid_shift]

lemma filterSlots_shift (c : Int) (slots : List Int) (events : List CalEvent) :
    filterSlots (slots.map (· + c)) (events.map (shiftEvent c))
      = (filterSlots slots events).map (· + c) := by
  unfold filterSlots
  rw [List.filter_map]
  congr 1
  apply List.filter_congr
  intro x _
  exact keepSlot_shift c x events

lemma buildDateSlots_shift (dayBase off : Int) :
    buildDateSlots dayBase off = slots0.map (· + (dayBase - off)) := by
  rw [buildDateSlots_explicit]
  simp only [slots0, List.map_cons, List.map_nil, List.cons.injEq, and_true]
  omega

lemma filter_ne_shift (b y : Int) (l : List Int) :
    (l.map (· + b)).filter (fun t => decide (t ≠ y + b))
      = (l.filter (fun x => decide (x ≠ y))).map (· + b) := by
  rw [List.filter_map]
  congr 1
  apply List.filter_congr
  intro x _
  simp [Function.comp]

lemma single_busy_core (y : Int) (hy : y ∈ slots0) :
    filterSlots slots0 [⟨some y, some (y + 20)⟩]
        = slots0.filter (fun x => decide (x ≠ y))
    ∧ (slots0.filter (fun x => decide (x ≠ y))).length = 5 := by
  simp only [slots0] at hy ⊢
  fin_cases hy <;> exact ⟨by decide, by decide⟩

/-- C6: for every date (civil midnight `dayBase`, offset `off`) and every slot
`s` among the 6 generated candidates, filtering against the single busy
interval equal to `s`'s 20-minute interval excludes exactly `s`: the result is
the candidate list with `s` removed, and 5 slots remain. -/
theorem busy_equal_slot_excludes_only_it (dayBase off s : Int)
    (hs : s ∈ buildDateSlots dayBase off) :
    filterSlots (buildDateSlots dayBase off) [⟨some s, some (s + 20)⟩]
        = (buildDateSlots dayBase off).filter (fun t => decide (t ≠ s))
    ∧ ((buildDateSlots dayBase off).filter (fun t => decide (t ≠ s))).length = 5 := by
  rw [buildDateSlots_shift] at hs ⊢
  obtain ⟨x, hx, rfl⟩ := List.mem_map.1 hs
  have hev : (⟨some (x + (dayBase - off)), some (x + (dayBase - off) + 20)⟩ : CalEvent)
      = shiftEvent (dayBase - off) ⟨some x, some (x + 20)⟩ := by
    simp only [shiftEvent, Option.map_some', CalEvent.mk.injEq, Option.some.injEq]
    constructor <;> ring_nf
  have hlist : ([⟨some (x + (dayBase - off)), some (x + (dayBase - off) + 20)⟩] : List CalEvent)
      = List.map (shiftEvent (dayBase - off)) [⟨some x, some (x + 20)⟩] := by
    rw [List.map_cons, List.map_nil, hev]
  rw [hlist, filterSlots_shift, filter_ne_shift]
  obtain ⟨hcore, hlen⟩ := single_busy_core x hx
  rw [hcore]
  exact ⟨rfl, by rw [List.length_map]; exact hlen⟩

/-- Witness for `availability_filter_spec` at `dayBase = 0`, `off = 60`,
no busy events. -/
theorem availability_filter_spec_witness :
    (0 : Int) % 1440 = 0 ∧
    (buildDateSlots 0 60).map (fun t => formatHHmm (toZonedTime t 60)) = availableSlots :=
  ⟨by decide, (availability_filter_spec 0 60 [] (by decide)).2.2.2⟩

/-- Witness for `busy_equal_slot_excludes_only_it` at `dayBase = 0`,
`off = 60` (slots start at instant 420 = 08:00 civil minus one hour),
busy interval equal to the first slot. -/
theorem busy_equal_slot_excludes_only_it_witness :
    (420 : Int) ∈ buildDateSlots 0 60 ∧
    (filterSlots (buildDateSlots 0 60) [⟨some 420, some (420 + 20)⟩]
        = (buildDateSlots 0 60).filter (fun t => decide (t ≠ 420))
      ∧ ((buildDateSlots 0 60).filter (fun t => decide (t ≠ 420))).length = 5) :=
  ⟨by decide, busy_equal_slot_excludes_only_it 0 60 420 (by decide)⟩

/-- C9: an event whose start or end field is absent (hence parses to an
Invalid Date) never causes any slot to be excluded: removing it from the
event list leaves the filter's result unchanged. -/
theorem invalid_event_never_excludes (slots : List Int) (pre post : List CalEvent)
    (e : CalEvent) (h : e.startTime = none ∨ e.endTime = none) :
    filterSlots slots (pre ++ e :: post) = filterSlots slots (pre ++ post) := by
  unfold filterSlots
  apply List.filter_congr
  intro s _
  unfold keepSlot
  rw [List.any_append, List.any_append, List.any_cons]
  have he : (ltInvalid s e.endTime && gtInvalid (s + 20) e.startTime) = false := by
    rcases h with h | h <;> rw [h] <;> simp [ltInvalid, gtInvalid]
  rw [he]
  simp

/-- Witness for `invalid_event_never_excludes`: an event with an absent start
field does not change the filtering of the one-slot list `[0]`. -/
theorem invalid_event_never_excludes_witness :
    (CalEvent.mk none (some 100)).startTime = none ∧
    filterSlots [0] [⟨none, some 100⟩] = filterSlots [0] [] :=
  ⟨rfl, invalid_event_never_excludes [0] [] [] ⟨none, some 100⟩ (Or.inl rfl)⟩

/-- C10: the availability filter is antitone in the busy-event list: if the
event list E is a subset of E', every slot available under E' is also
available under E. -/
theorem filter_antitone_in_events (slots : List Int) (E E' : List CalEvent)
    (hsub : E ⊆ E') (s : Int) (hs : s ∈ filterSlots slots E') :
    s ∈ filterSlots slots E := by
  rw [filterSlots, List.mem_filter] at hs ⊢
  obtain ⟨hmem, hkeep⟩ := hs
  refine ⟨hmem, ?_⟩
  rw [keepSlot_eq_true_iff] at hkeep ⊢
  intro e he
  exact hkeep e (hsub he)

/-- Witness for `filter_antitone_in_events`: slot 0 is available under the
one-event list, hence also under the empty sublist. -/
theorem filter_antitone_in_events_witness :
    ([] : List CalEvent) ⊆ [⟨some 100, some 200⟩] ∧
    (0 : Int) ∈ filterSlots [0] [⟨some 100, some 200⟩] ∧
    (0 : Int) ∈ filterSlots [0] [] :=
  ⟨List.nil_subset _, by decide,
    filter_antitone_in_events [0] [] [⟨some 100, some 200⟩] (List.nil_subset _) 0 (by decide)⟩

/-- JS truthiness of the `timetable` form field: `none` models a missing field
(`formData.get` returned null), and the empty string is the only falsy string. -/
def jsFalsyStr : Option String → Bool
  | none => true
  | some s => s == ""

/-- The validation guard of the create-meeting handler, transliterated:
`!timeString && availableSlots.includes(timeString)`.  JS `includes` compares
with strict equality, so a null `timeString` matches no list element, which the
`getD ""` default reproduces (the empty string is not in the list either). -/
def rejectsTimeSlot (timetable : Option String) : Bool :=
  jsFalsyStr timetable && availableSlots.contains (timetable.getD "")

lemma rejectsTimeSlot_eq_false (t : Option String) : rejectsTimeSlot t = false := by
  cases t with
  | none => decide
  | some s =>
    by_cases h : s = ""
    · subst h; decide
    · simp [rejectsTimeSlot, jsFalsyStr, h]

/-- Start or end of an outbound calendar event: instant plus timezone label. -/
structure EventTime where
  dateTime : Int
  timeZone : String
deriving DecidableEq, Repr

/-- One entry of `reminders.overrides`. -/
structure ReminderOverride where
  method : String
  minutes : Int
deriving DecidableEq, Repr

/-- The `reminders` object of the outbound event. -/
structure Reminders where
  useDefault : Bool
  overrides : List ReminderOverride
deriving DecidableEq, Repr

/-- The outbound CalendarEvent built by the create-meeting handler.
`requestId` models `Math.random().toString(36).substring(7)` of the
conferencing-creation request. -/
structure CalendarEvent where
  summary : String
  description : String
  startTime : EventTime
  endTime : EventTime
  requestId : String
  reminders : Reminders
deriving DecidableEq, Repr

/-- Event construction of the create-meeting handler: `civil` is the civil
Europe/Paris wall-clock minute count parsed from
`${selectedDate} ${timetable}` with pattern dd/MM/yyyy HH:mm; the start
instant is its conversion through `fromZonedTime` (the round trip through
`new Date(utcDate.toUTCString())` is the identity at minute resolution), and
the end instant is start plus 20 minutes. -/
def buildEvent (invitee message : String) (civil off : Int) (requestId : String) :
    CalendarEvent :=
  let startDateTime := fromZonedTime civil off
  let endDateTime := startDateTime + 20
  { summary := "Call with " ++ invitee
    description := message
    startTime := ⟨startDateTime, "UTC"⟩
    endTime := ⟨endDateTime, "UTC"⟩
    requestId := requestId
    reminders := ⟨false, [⟨"email", 30⟩]⟩ }

/-- A response of the remote calendar backend: HTTP status and parsed JSON
body (the body is opaque here, `await response.json()` in the source). -/
structure UpstreamResponse where
  status : Nat
  body : String
deriving DecidableEq, Repr

/-- A response of the worker itself: HTTP status, `message` field and `data`
field of the JSON body. -/
structure ApiResponse where
  status : Nat
  message : String
  data : String
deriving DecidableEq, Repr

/-- The POST /gmeet-api/create-meeting handler after form parsing: validate the
timetable, build the event, POST it to the backend (`backend` models that
remote call), and wrap the parsed backend body in a 201 response. -/
def createMeetingHandler (timetable : Option String) (invitee message : String)
    (civil off : Int) (requestId : String)
    (backend : CalendarEvent → UpstreamResponse) : ApiResponse :=
  if rejectsTimeSlot timetable then
    ⟨404, "No correct time slot selected", ""⟩
  else
    let ev := buildEvent invitee message civil off requestId
    let resp := backend ev
    ⟨201, "Meeting created successfully!", resp.body⟩

/-- C3 (code bug): the label "10:00" is not in the candidate list, yet the
guard `!timeString && availableSlots.includes(timeString)` does not fire — it
is identically false, for every timetable value — so the handler proceeds to
the backend call and answers 201 instead of the specified 404 rejection. -/
theorem create_meeting_never_rejects_bad_slot :
    availableSlots.contains "10:00" = false
    ∧ rejectsTimeSlot (some "10:00") = false
    ∧ (∀ t : Option String, rejectsTimeSlot t = false)
    ∧ (createMeetingHandler (some "10:00") "a@b" "hi" 600 60 "r"
          (fun _ => ⟨200, "created"⟩)).status = 201 :=
  ⟨by decide, by decide, rejectsTimeSlot_eq_false, by decide⟩

/-- C4 counterexample: with the backend answering status 500, the handler
answers 201, not the received status. -/
theorem create_meeting_status_not_propagated :
    (createMeetingHandler (some "08:00") "a@b" "hi" 480 60 "r"
        (fun _ => ⟨500, "backend failure"⟩)).status = 201
    ∧ (201 : Nat) ≠ 500 := by
  exact ⟨by decide, by decide⟩

/-- C4 amended: for every create-meeting request (validation never rejects),
whatever status the backend returns, the handler responds with fixed status
201, message "Meeting created successfully!" and the parsed backend body
embedded under `data`; the received status is discarded. -/
theorem create_meeting_wraps_backend (timetable : Option String)
    (invitee message : String) (civil off : Int) (requestId : String)
    (backend : CalendarEvent → UpstreamResponse) :
    createMeetingHandler timetable invitee message civil off requestId backend
      = ⟨201, "Meeting created successfully!",
          (backend (buildEvent invitee message civil off requestId)).body⟩ := by
  simp [createMeetingHandler, rejectsTimeSlot_eq_false]

/-- C7: the constructed CalendarEvent has summary "Call with {invitee}", end
instant equal to start instant plus exactly 20 minutes, timezone label "UTC"
on both ends, default reminders suppressed with exactly one override of method
"email" and 30-minute lead time; the start instant is the civil time converted
with the date's offset, and the description is the message field. -/
theorem buildEvent_fields (invitee message : String) (civil off : Int)
    (requestId : String) :
    (buildEvent invitee message civil off requestId).summary = "Call with " ++ invitee
    ∧ (buildEvent invitee message civil off requestId).endTime.dateTime
        = (buildEvent invitee message civil off requestId).startTime.dateTime + 20
    ∧ (buildEvent invitee message civil off requestId).startTime.timeZone = "UTC"
    ∧ (buildEvent invitee message civil off requestId).endTime.timeZone = "UTC"
    ∧ (buildEvent invitee message civil off requestId).reminders.useDefault = false
    ∧ (buildEvent invitee message civil off requestId).reminders.overrides
        = [⟨"email", 30⟩]
    ∧ (buildEvent invitee message civil off requestId).startTime.dateTime
        = fromZonedTime civil off
    ∧ (buildEvent invitee message civil off requestId).description = message :=
  ⟨rfl, rfl, rfl, rfl, rfl, rfl, rfl, rfl⟩

/-- The JWT claim set (field values before base64url encoding). -/
structure ClaimSet where
  iss : String
  scope : String
  aud : String
  exp : Int
  iat : Int
deriving DecidableEq, Repr

/-- `Math.round(Date.now() / 1000)`: epoch milliseconds rounded to seconds.
JS Math.round(x) is the floor of x + 1/2, and with integer `nowMs` the value
is the floor of (2 * nowMs + 1000) / 2000. -/
def assertionTime (nowMs : Int) : Int := (2 * nowMs + 1000).fdiv 2000

/-- The claim set built by getGoogleAuthToken: issuer, scope, audience
"https://oauth2.googleapis.com/token", expiry = issued-at + 3600 seconds,
issued-at = current time in seconds. -/
def mkClaimSet (user scope : String) (nowMs : Int) : ClaimSet :=
  let assertiontime := assertionTime nowMs
  let expirytime := assertiontime + 3600
  { iss := user
    scope := scope
    aud := "https://oauth2.googleapis.com/token"
    exp := expirytime
    iat := assertiontime }

/-- C5: the claim set constructed for a token issuance (the broker is invoked
by initGoogleCalendar with the service identity and OAUTH_SCOPES) has issuer
equal to the supplied identity, scope equal to the two calendar scopes,
audience equal to the OAuth token endpoint, issued-at equal to the current
time (epoch milliseconds rounded to seconds), and expiry equal to issued-at
plus exactly 3600 seconds. -/
theorem claimset_fields (user : String) (nowMs : Int) :
    (mkClaimSet user OAUTH_SCOPES nowMs).iss = user
    ∧ (mkClaimSet user OAUTH_SCOPES nowMs).scope = OAUTH_SCOPES
    ∧ (mkClaimSet user OAUTH_SCOPES nowMs).aud = "https://oauth2.googleapis.com/token"
    ∧ (mkClaimSet user OAUTH_SCOPES nowMs).iat = assertionTime nowMs
    ∧ (mkClaimSet user OAUTH_SCOPES nowMs).exp
        = (mkClaimSet user OAUTH_SCOPES nowMs).iat + 3600 :=
  ⟨rfl, rfl, rfl, rfl, rfl⟩

/-- Result of the signing step: a base64url signature, or failure, meaning one
of str2ab/atob/importKey/sign threw (as for a syntactically invalid key). -/
inductive SignOutcome where
  | sig (s : String)
  | failure
deriving DecidableEq, Repr

/-- getGoogleAuthToken: build the unsigned JWT from the fixed header and the
encoded claim set, sign it, POST the jwt-bearer grant to the token endpoint
and return the access_token field.  The platform operations are parameters:
`encode` models objectToBase64url on the claim set; `signer` models the
PEM-strip/atob/importKey/sign pipeline, with `failure` for a thrown
exception; `tokenFetch` models the POST plus JSON parsing, with `none` for a
thrown exception or a missing field.  The whole body runs in a try/catch
whose catch logs the error and returns undefined, so a thrown step yields
`none`. -/
def getGoogleAuthToken (user key scope : String) (nowMs : Int)
    (encode : ClaimSet → String)
    (signer : String → String → SignOutcome)
    (tokenFetch : String → Option String) : Option String :=
  let jwtHeader := "eyJhbGciOiJSUzI1NiIsInR5cCI6IkpXVCJ9"
  let claimset := encode (mkClaimSet user scope nowMs)
  let jwtUnsigned := jwtHeader ++ "." ++ claimset
  match signer jwtUnsigned key with
  | .failure => none
  | .sig s => tokenFetch (jwtUnsigned ++ "." ++ s)

/-- C8: when the signing step throws for the supplied key — as it does for a
syntactically invalid private key — token issuance completes (the catch
branch returns undefined rather than propagating the fault) and yields no
token: the result is `none` and never a successful-looking `some token`. -/
theorem invalid_key_token_issuance (user key scope : String) (nowMs : Int)
    (encode : ClaimSet → String) (signer : String → String → SignOutcome)
    (tokenFetch : String → Option String)
    (hfail : ∀ content, signer content key = SignOutcome.failure) :
    getGoogleAuthToken user key scope nowMs encode signer tokenFetch = none
    ∧ ∀ token : String,
        getGoogleAuthToken user key scope nowMs encode signer tokenFetch ≠ some token := by
  have h : getGoogleAuthToken user key scope nowMs encode signer tokenFetch = none := by
    simp only [getGoogleAuthToken, hfail]
  refine ⟨h, fun token hc => ?_⟩
  rw [h] at hc
  exact Option.noConfusion hc

/-- Witness for `invalid_key_token_issuance`: a signer that always throws on
the key "not-a-key" leads to a `none` result. -/
theorem invalid_key_token_issuance_witness :
    (∀ content : String,
        (fun _ _ => SignOutcome.failure : String → String → SignOutcome) content
          "not-a-key" = SignOutcome.failure)
    ∧ getGoogleAuthToken "svc@proj.iam.gserviceaccount.com" "not-a-key" OAUTH_SCOPES 0
        (fun _ => "claims") (fun _ _ => SignOutcome.failure) (fun _ => some "tok") = none :=
  ⟨fun _ => rfl,
    (invalid_key_token_issuance "svc@proj.iam.gserviceaccount.com" "not-a-key"
      OAUTH_SCOPES 0 (fun _ => "claims") (fun _ _ => SignOutcome.failure)
      (fun _ => some "tok") (fun _ => rfl)).1⟩

end Gmeet
